import Mathlib

/-!
Shallow embedding of `src/script.js`, a browser PDF-merger.

The mutable application state of the script is the array `filesData`
(entries `{ id, file, name, size, sizeBytes, pageCount, thumbnail, pdfData }`)
plus a few UI flags (merge-button text/disabled, success-message visibility).
External services (pdf.js decode, PDF-LIB load/copyPages, `Math.random`,
`Date.now`) are modelled as data carried by the inputs: each incoming file
records whether its decode succeeds, the identities of its pages, and
whether the merge-time load fails (and with which message).
-/

/-- One incoming browser `File`, together with the outcomes the external
services would produce on it: `decodeOk` is whether `pdfjsLib.getDocument`
succeeds on its bytes, `pageCount`/`thumbnail` are what the decode step
yields, `pages` are the identities of its pages (used by the merge loop's
`copyPages`), and `loadErr` is `some message` when `PDFLib.PDFDocument.load`
or the page-copy on this file fails during a merge. -/
structure PFile where
  name : String
  ftype : String
  sizeBytes : Nat
  decodeOk : Bool
  pageCount : Nat
  thumbnail : String
  pages : List Nat
  loadErr : Option String
deriving DecidableEq

/-- One element of the script's `filesData` array (`script.js` lines 84-93).
The formatted `size` string is derived from `sizeBytes` and omitted;
`pages`/`loadErr` stand for the raw bytes (`file`/`pdfData`) through the
merge service's behaviour on them. -/
structure Entry where
  id : String
  name : String
  sizeBytes : Nat
  pageCount : Nat
  thumbnail : String
  pages : List Nat
  loadErr : Option String
deriving DecidableEq

/-- The entry `addFile` pushes for file `f` under generated id `i`
(`script.js` lines 84-93). -/
def mkEntry (f : PFile) (i : String) : Entry :=
  { id := i, name := f.name, sizeBytes := f.sizeBytes, pageCount := f.pageCount,
    thumbnail := f.thumbnail, pages := f.pages, loadErr := f.loadErr }

/-- `script.js` line 72: `Date.now() + Math.random().toString(36).substr(2, 9)`.
In JavaScript, number + string concatenates the decimal rendering of the
timestamp with the random suffix. -/
def genId (now : Nat) (rand : String) : String :=
  toString now ++ rand

/-- The `alert` messages the add path can emit: `Only PDF files are accepted.`
(line 17/60) and `Failed to load NAME. It might be corrupted.` (line 97). -/
inductive Alert where
  | unsupportedType
  | corruptFile (name : String)
deriving DecidableEq

/-- The literal message text of each alert, as in the source. -/
def Alert.message : Alert → String
  | Alert.unsupportedType => "Only PDF files are accepted."
  | Alert.corruptFile n => "Failed to load " ++ n ++ ". It might be corrupted."

/-- `addFile` (`script.js` lines 71-99): decode the file; on success push a
new entry at the end of `filesData`; on decode failure alert and leave the
array untouched. Returns the new array and the alerts emitted.
The generated id `i` is passed in (in the source it is `genId` applied to
the current `Date.now()` and `Math.random()` draw). -/
def addFileRun (fs : List Entry) (f : PFile) (i : String) :
    List Entry × List Alert :=
  if f.decodeOk then (fs ++ [mkEntry f i], [])
  else (fs, [Alert.corruptFile f.name])

/-- The effect of `addFile` on `filesData` alone. -/
def addFile (fs : List Entry) (f : PFile) (i : String) : List Entry :=
  (addFileRun fs f i).1

/-- One step of the sequential `for (const file of newFiles) await addFile(file)`
loop of `handleFiles`, threading the array and the emitted alerts. -/
def addStep (acc : List Entry × List Alert) (p : PFile × String) :
    List Entry × List Alert :=
  ((addFileRun acc.1 p.1 p.2).1, acc.2 ++ (addFileRun acc.1 p.1 p.2).2)

/-- `handleFiles` (`script.js` lines 55-69): keep only files whose type is
`application/pdf`; if that leaves nothing while the drop was nonempty,
alert `Only PDF files are accepted.` and return; otherwise await `addFile`
on each kept file in list order. Each file is paired with the id generated
for its `addFile` call. -/
def handleFilesRun (fs : List Entry) (batch : List (PFile × String)) :
    List Entry × List Alert :=
  if (batch.filter (fun p => p.1.ftype == "application/pdf")).length = 0 ∧
      0 < batch.length then
    (fs, [Alert.unsupportedType])
  else
    (batch.filter (fun p => p.1.ftype == "application/pdf")).foldl addStep (fs, [])

/-- The effect of `handleFiles` on `filesData` alone. -/
def handleFiles (fs : List Entry) (batch : List (PFile × String)) : List Entry :=
  (handleFilesRun fs batch).1

/-- The entries a batch contributes to `filesData`: the files of PDF type
whose decode succeeds, in batch order. -/
def acceptedEntries (batch : List (PFile × String)) : List Entry :=
  ((batch.filter (fun p => p.1.ftype == "application/pdf")).filter
      (fun p => p.1.decodeOk)).map (fun p => mkEntry p.1 p.2)

/-- `removeFile` (`script.js` lines 124-127):
`filesData = filesData.filter(f => f.id !== id)`. -/
def removeFile (fs : List Entry) (i : String) : List Entry :=
  fs.filter (fun f => f.id != i)

/-- The drop handler of `addDragEvents` (`script.js` lines 227-242): when the
dragged item differs from the target, read `header = filesData[srcIndex]`,
`splice(srcIndex, 1)` it out, and `splice(targetIndex, 0, header)` it back
in. Both indices are `data-index` attributes of rendered items, hence
indices of existing entries. -/
def moveTo (fs : List Entry) (src tgt : Nat) : List Entry :=
  if src = tgt then fs
  else
    match fs.get? src with
    | none => fs
    | some header => (fs.eraseIdx src).insertIdx tgt header

/-- `updateButtons` (`script.js` lines 148-155): the merge button's
`disabled` flag is `filesData.length < 2`. -/
def updateButtons (fs : List Entry) : Bool :=
  decide (fs.length < 2)

/-- The UI-backed mutable state touched by `mergePDFs`. -/
structure AppState where
  filesData : List Entry
  mergeBtnText : String
  mergeBtnDisabled : Bool
  successVisible : Bool
deriving DecidableEq

/-- Outcome of a `mergePDFs` call: the early return on fewer than two files
(line 246), the catch-block alert carrying only `error.message` (line 272),
or the downloaded artifact with its fixed filename (line 267). -/
inductive MergeResult where
  | insufficientFiles
  | mergeError (cause : String)
  | artifact (pages : List Nat) (filename : String)
deriving DecidableEq

/-- The `for (const data of filesData)` loop of `mergePDFs` (lines 259-264):
for each entry, re-read its bytes, `PDFDocument.load` them, copy all its
pages onto the accumulating output document. Returns the ids of the entries
whose load was attempted, in order, and either the accumulated page list or
the message of the first failure (which aborts the loop). -/
def mergeLoop : List Entry → List Nat → List String × Except String (List Nat)
  | [], acc => ([], Except.ok acc)
  | e :: rest, acc =>
    match e.loadErr with
    | some c => ([e.id], Except.error c)
    | none =>
      ((mergeLoop rest (acc ++ e.pages)).1.cons e.id, (mergeLoop rest (acc ++ e.pages)).2)

/-- `mergePDFs` (`script.js` lines 245-277). Fewer than two files: bare
`return`, nothing touched. Otherwise run the sequential loop; on success
`save` and download `merged-document.pdf` and unhide the success message;
on failure alert with the error's message. The `finally` block restores the
button text (so it is net unchanged) and sets `disabled` to `false`.
`filesData` is only read. Returns the new state, the attempted-entry trace,
and the outcome. -/
def mergePDFs (s : AppState) : AppState × List String × MergeResult :=
  if s.filesData.length < 2 then (s, [], MergeResult.insufficientFiles)
  else
    match mergeLoop s.filesData [] with
    | (tr, Except.error c) =>
      ({ s with mergeBtnDisabled := false }, tr, MergeResult.mergeError c)
    | (tr, Except.ok pgs) =>
      ({ s with successVisible := true, mergeBtnDisabled := false }, tr,
        MergeResult.artifact pgs "merged-document.pdf")

/-- The operations the UI can issue against `filesData`. -/
inductive Op where
  | add (f : PFile) (i : String)
  | remove (i : String)
  | move (src tgt : Nat)
deriving DecidableEq

/-- Apply one operation to `filesData`. -/
def applyOp (fs : List Entry) : Op → List Entry
  | Op.add f i => addFile fs f i
  | Op.remove i => removeFile fs i
  | Op.move src tgt => moveTo fs src tgt

/-- Apply a sequence of operations from left to right. -/
def applyOps (fs : List Entry) : List Op → List Entry
  | [] => fs
  | op :: rest => applyOps (applyOp fs op) rest

/-- An `add` step is fresh when the id generated for it does not already
occur in the set (only adds whose decode succeeds push an entry). -/
def freshStep (fs : List Entry) : Op → Bool
  | Op.add f i => !f.decodeOk || !(decide (i ∈ fs.map Entry.id))
  | _ => true

/-- Every `add` along the run draws an id not already present at that point. -/
def FreshRun : List Entry → List Op → Bool
  | _, [] => true
  | fs, op :: rest => freshStep fs op && FreshRun (applyOp fs op) rest

/-! Concrete sample inputs used by witnesses and counterexamples. -/

/-- A well-formed two-page PDF as the browser would deliver it. -/
def fileA : PFile :=
  { name := "a.pdf", ftype := "application/pdf", sizeBytes := 1000, decodeOk := true,
    pageCount := 2, thumbnail := "tA", pages := [1, 2], loadErr := none }

/-- A well-formed three-page PDF. -/
def fileB : PFile :=
  { name := "b.pdf", ftype := "application/pdf", sizeBytes := 2000, decodeOk := true,
    pageCount := 3, thumbnail := "tB", pages := [3, 4, 5], loadErr := none }

/-- A file of PDF type whose `pdfjsLib.getDocument` decode fails. -/
def corruptF : PFile :=
  { name := "bad.pdf", ftype := "application/pdf", sizeBytes := 10, decodeOk := false,
    pageCount := 0, thumbnail := "", pages := [], loadErr := none }

/-- A non-PDF file (content type `text/plain`). -/
def textF : PFile :=
  { name := "notes.txt", ftype := "text/plain", sizeBytes := 50, decodeOk := true,
    pageCount := 0, thumbnail := "", pages := [], loadErr := none }

/-- Entry obtained by adding `fileA` under id `idA`. -/
def entryA : Entry := mkEntry fileA "idA"

/-- Entry obtained by adding `fileB` under id `idB`. -/
def entryB : Entry := mkEntry fileB "idB"

/-- A third healthy entry. -/
def entryC : Entry :=
  { id := "idC", name := "c.pdf", sizeBytes := 300, pageCount := 1,
    thumbnail := "tC", pages := [6], loadErr := none }

/-- An entry whose merge-time `PDFDocument.load` fails, id `a1`. -/
def boomA : Entry :=
  { id := "a1", name := "a1.pdf", sizeBytes := 100, pageCount := 1,
    thumbnail := "", pages := [9], loadErr := some "Failed to parse PDF document" }

/-- An entry whose merge-time `PDFDocument.load` fails with the same
underlying message as `boomA` but a different id, `b1`. -/
def boomB : Entry :=
  { id := "b1", name := "b1.pdf", sizeBytes := 100, pageCount := 1,
    thumbnail := "", pages := [9], loadErr := some "Failed to parse PDF document" }

/-- An application state holding the two healthy entries `A`, `B`. -/
def stAB : AppState :=
  { filesData := [entryA, entryB], mergeBtnText := "Merge PDFs",
    mergeBtnDisabled := false, successVisible := false }

/-- An application state holding a single entry. -/
def stOne : AppState :=
  { filesData := [entryA], mergeBtnText := "Merge PDFs",
    mergeBtnDisabled := true, successVisible := false }

/-- A state whose second entry fails to load during the merge. -/
def stFail : AppState :=
  { filesData := [entryA, boomA], mergeBtnText := "Merge PDFs",
    mergeBtnDisabled := false, successVisible := false }

/-- Like `stFail` but the failing entry has id `b1` instead of `a1`. -/
def stFailB : AppState :=
  { filesData := [entryA, boomB], mergeBtnText := "Merge PDFs",
    mergeBtnDisabled := false, successVisible := false }

/-- The id produced when two `addFile` calls happen in the same millisecond
(`Date.now()` returns the same value) and `Math.random` yields the same
nine-character suffix. -/
def dupId : String := genId 1730000000000 "k3j9q2z1p"

/-- A small operation run whose adds all draw fresh ids. -/
def freshOpsW : List Op :=
  [Op.add fileA "i1", Op.add fileB "i2", Op.remove "i1", Op.move 0 0]

/-! Helper lemmas. -/

/-- Unfolding the sequential add loop: the array gains the decodable files'
entries in order, the alert log gains one corrupt-file alert per failed
decode, in order. -/
theorem foldl_addStep (l : List (PFile × String)) :
    ∀ (fs : List Entry) (al : List Alert),
      l.foldl addStep (fs, al) =
        (fs ++ (l.filter (fun p => p.1.decodeOk)).map (fun p => mkEntry p.1 p.2),
          al ++ (l.filter (fun p => !p.1.decodeOk)).map
            (fun p => Alert.corruptFile p.1.name)) := by
  induction l with
  | nil => intro fs al; simp
  | cons p rest ih =>
    intro fs al
    by_cases h : p.1.decodeOk = true
    · simp [addStep, addFileRun, h, ih, List.filter_cons]
    · simp at h
      simp [addStep, addFileRun, h, ih, List.filter_cons]

/-- `handleFiles` appends exactly the accepted entries of the batch. -/
theorem handleFiles_eq (fs : List Entry) (batch : List (PFile × String)) :
    handleFiles fs batch = fs ++ acceptedEntries batch := by
  unfold handleFiles handleFilesRun acceptedEntries
  by_cases h : (batch.filter (fun p => p.1.ftype == "application/pdf")).length = 0 ∧
      0 < batch.length
  · have h1 : batch.filter (fun p => p.1.ftype == "application/pdf") = [] :=
      List.length_eq_zero.mp h.1
    rw [if_pos h]
    simp [h1]
  · rw [if_neg h, foldl_addStep]

/-- The alerts `handleFiles` emits: the unsupported-type alert exactly when
the nonempty batch holds no PDF, else one corrupt-file alert per failed
decode. -/
theorem handleFilesRun_alerts (fs : List Entry) (batch : List (PFile × String)) :
    (handleFilesRun fs batch).2 =
      if (batch.filter (fun p => p.1.ftype == "application/pdf")).length = 0 ∧
          0 < batch.length then [Alert.unsupportedType]
      else ((batch.filter (fun p => p.1.ftype == "application/pdf")).filter
          (fun p => !p.1.decodeOk)).map (fun p => Alert.corruptFile p.1.name) := by
  unfold handleFilesRun
  by_cases h : (batch.filter (fun p => p.1.ftype == "application/pdf")).length = 0 ∧
      0 < batch.length
  · rw [if_pos h, if_pos h]
  · rw [if_neg h, if_neg h, foldl_addStep]
    simp

/-- Inserting at a position within bounds is a permutation of consing. -/
theorem insertIdx_perm_cons {α : Type} (a : α) :
    ∀ (n : Nat) (l : List α), n ≤ l.length → List.Perm (l.insertIdx n a) (a :: l)
  | 0, l, _ => by rw [List.insertIdx_zero]
  | n + 1, [], h => by simp at h
  | n + 1, b :: l, h => by
    rw [List.insertIdx_succ_cons]
    exact (List.Perm.cons b (insertIdx_perm_cons a n l (Nat.le_of_succ_le_succ h))).trans
      (List.Perm.swap a b l)

/-- Consing the removed element back onto an index-erased list permutes the
original list. -/
theorem get_cons_eraseIdx_perm {α : Type} :
    ∀ (l : List α) (i : Nat) (h : i < l.length),
      List.Perm (l.get ⟨i, h⟩ :: l.eraseIdx i) l
  | _ :: _, 0, _ => List.Perm.refl _
  | a :: l, i + 1, h => by
    rw [List.eraseIdx_cons_succ]
    have hi : i < l.length := Nat.lt_of_succ_lt_succ h
    have hget : (a :: l).get ⟨i + 1, h⟩ = l.get ⟨i, hi⟩ := rfl
    rw [hget]
    exact (List.Perm.swap (l.get ⟨i, hi⟩) a (l.eraseIdx i)).symm.trans
      (List.Perm.cons a (get_cons_eraseIdx_perm l i hi))

/-- Moving an entry between two in-range positions permutes the list. -/
theorem moveTo_perm (fs : List Entry) (src tgt : Nat)
    (hs : src < fs.length) (ht : tgt < fs.length) :
    List.Perm (moveTo fs src tgt) fs := by
  unfold moveTo
  by_cases he : src = tgt
  · rw [if_pos he]
  · rw [if_neg he, List.get?_eq_get hs]
    have hlen : (fs.eraseIdx src).length = fs.length - 1 :=
      List.length_eraseIdx_of_lt hs
    have htle : tgt ≤ (fs.eraseIdx src).length := by omega
    exact (insertIdx_perm_cons _ tgt _ htle).trans (get_cons_eraseIdx_perm fs src hs)

/-- For arbitrary indices, `moveTo` yields a permutation or a sublist of the
input (out-of-range target indices drop the moved element in the model; they
cannot arise from the UI, whose indices name existing items). -/
theorem moveTo_perm_or_sublist (fs : List Entry) (src tgt : Nat) :
    List.Perm (moveTo fs src tgt) fs ∨ List.Sublist (moveTo fs src tgt) fs := by
  unfold moveTo
  by_cases he : src = tgt
  · left; rw [if_pos he]
  rw [if_neg he]
  cases hget : fs.get? src with
  | none => left; exact List.Perm.refl _
  | some header =>
    rcases List.get?_eq_some.mp hget with ⟨hs, hh⟩
    by_cases htle : tgt ≤ (fs.eraseIdx src).length
    · left
      show List.Perm (List.insertIdx tgt header (fs.eraseIdx src)) fs
      have h2 : List.Perm (header :: fs.eraseIdx src) fs := by
        rw [← hh]
        exact get_cons_eraseIdx_perm fs src hs
      exact (insertIdx_perm_cons header tgt _ htle).trans h2
    · right
      show List.Sublist (List.insertIdx tgt header (fs.eraseIdx src)) fs
      rw [List.insertIdx_of_length_lt _ _ _ (Nat.lt_of_not_le htle)]
      exact List.eraseIdx_sublist fs src

/-- A fresh step keeps the ids of the set duplicate-free. -/
theorem nodup_ids_applyOp (fs : List Entry) (op : Op)
    (hn : (fs.map Entry.id).Nodup) (hf : freshStep fs op = true) :
    ((applyOp fs op).map Entry.id).Nodup := by
  cases op with
  | add f i =>
    by_cases hd : f.decodeOk = true
    · have hniy : i ∉ fs.map Entry.id := by
        simp [freshStep, hd] at hf
        simpa using hf
      simp only [applyOp, addFile, addFileRun, hd, if_pos, List.map_append]
      simp [mkEntry, List.nodup_append, hn, hniy]
    · simp only [Bool.not_eq_true] at hd
      simpa [applyOp, addFile, addFileRun, hd] using hn
  | remove i =>
    exact List.Nodup.sublist ((List.filter_sublist fs).map Entry.id) hn
  | move src tgt =>
    rcases moveTo_perm_or_sublist fs src tgt with hp | hsub
    · exact ((hp.map Entry.id).nodup_iff).mpr hn
    · exact List.Nodup.sublist (hsub.map Entry.id) hn

/-- Along any fresh run the ids stay duplicate-free. -/
theorem nodup_ids_applyOps :
    ∀ (ops : List Op) (fs : List Entry), (fs.map Entry.id).Nodup →
      FreshRun fs ops = true → ((applyOps fs ops).map Entry.id).Nodup
  | [], _, hn, _ => hn
  | op :: rest, fs, hn, hf => by
    have h1 : freshStep fs op = true ∧ FreshRun (applyOp fs op) rest = true := by
      simpa [FreshRun, Bool.and_eq_true] using hf
    exact nodup_ids_applyOps rest (applyOp fs op)
      (nodup_ids_applyOp fs op hn h1.1) h1.2

/-- When every entry loads, the merge loop visits each entry once in order
and accumulates all pages in order. -/
theorem mergeLoop_ok :
    ∀ (es : List Entry) (acc : List Nat), (∀ e ∈ es, e.loadErr = none) →
      mergeLoop es acc = (es.map Entry.id, Except.ok (acc ++ (es.map Entry.pages).flatten))
  | [], acc, _ => by simp [mergeLoop]
  | e :: rest, acc, h => by
    have he : e.loadErr = none := h e (List.mem_cons_self e rest)
    have ih := mergeLoop_ok rest (acc ++ e.pages)
      (fun x hx => h x (List.mem_cons_of_mem e hx))
    simp [mergeLoop, he, ih, List.append_assoc]

/-- The merge loop stops at the first failing entry: entries before it are
each attempted once, in order, entries after it never, and the loop reports
that entry's message. -/
theorem mergeLoop_err :
    ∀ (pre : List Entry) (bad : Entry) (post : List Entry) (acc : List Nat)
      (c : String), (∀ e ∈ pre, e.loadErr = none) → bad.loadErr = some c →
      mergeLoop (pre ++ bad :: post) acc = (pre.map Entry.id ++ [bad.id], Except.error c)
  | [], bad, post, acc, c, _, hb => by simp [mergeLoop, hb]
  | e :: pre, bad, post, acc, c, h, hb => by
    have he : e.loadErr = none := h e (List.mem_cons_self e pre)
    have ih := mergeLoop_err pre bad post (acc ++ e.pages) c
      (fun x hx => h x (List.mem_cons_of_mem e hx)) hb
    simp [mergeLoop, he, ih]

/-! Claim theorems. -/

/-- C1: merge processes the entries strictly sequentially in the current
sequence order (the attempted-entry trace is exactly the ids in sequence
order) and the merged artifact's logical page sequence is the concatenation
of each entry's pages in that order; in particular merging exactly two
entries A then B yields pages(A) ++ pages(B). -/
theorem merge_pages_concat :
    (∀ s : AppState, 2 ≤ s.filesData.length →
      (∀ e ∈ s.filesData, e.loadErr = none) →
      (mergePDFs s).2 = (s.filesData.map Entry.id,
        MergeResult.artifact ((s.filesData.map Entry.pages).flatten)
          "merged-document.pdf"))
    ∧ (∀ (A B : Entry) (t : String) (d v : Bool),
      A.loadErr = none → B.loadErr = none →
      (mergePDFs (AppState.mk [A, B] t d v)).2.2 =
        MergeResult.artifact (A.pages ++ B.pages) "merged-document.pdf") := by
  constructor
  · intro s h2 hok
    unfold mergePDFs
    rw [if_neg (by omega), mergeLoop_ok s.filesData [] hok]
    simp
  · intro A B t d v hA hB
    have hok : ∀ e ∈ ([A, B] : List Entry), e.loadErr = none := by
      intro e he
      simp at he
      rcases he with rfl | rfl
      · exact hA
      · exact hB
    unfold mergePDFs
    rw [if_neg (by simp)]
    rw [mergeLoop_ok [A, B] [] hok]
    simp

/-- Witness for C1: the concrete state holding the two healthy entries. -/
theorem merge_pages_concat_witness :
    2 ≤ stAB.filesData.length ∧ (∀ e ∈ stAB.filesData, e.loadErr = none) ∧
      (mergePDFs stAB).2 = (stAB.filesData.map Entry.id,
        MergeResult.artifact ((stAB.filesData.map Entry.pages).flatten)
          "merged-document.pdf") :=
  ⟨by decide, by decide, merge_pages_concat.1 stAB (by decide) (by decide)⟩

/-- C2 (counterexample): two `addFile` calls that fall in the same
millisecond (`Date.now()` repeats) and draw the same `Math.random` suffix
generate equal ids, so a sequence of two adds from the empty set reaches a
state whose ids are not unique. -/
theorem duplicate_id_reachable :
    ¬ ((applyOps [] [Op.add fileA dupId, Op.add fileB dupId]).map Entry.id).Nodup := by
  decide

/-- C2 (amended): provided every add along the run draws an id not already
present in the set (which only a `Date.now()`/`Math.random()` coincidence
can violate), every id in the resulting set is unique for every sequence of
add/remove/moveTo operations from the empty set. -/
theorem unique_ids_of_fresh_run (ops : List Op) (h : FreshRun [] ops = true) :
    ((applyOps [] ops).map Entry.id).Nodup :=
  nodup_ids_applyOps ops [] (by simp) h

/-- Witness for C2 (amended) on a concrete add/remove/move run. -/
theorem unique_ids_of_fresh_run_witness :
    FreshRun [] freshOpsW = true ∧ ((applyOps [] freshOpsW).map Entry.id).Nodup :=
  ⟨by decide, unique_ids_of_fresh_run freshOpsW (by decide)⟩

/-- C3: invoked with fewer than two entries, `mergePDFs` takes the
insufficient-files early return: the state is untouched, no entry is
attempted, and no artifact is produced; `updateButtons` disables the merge
action in exactly this situation. -/
theorem merge_insufficient_files (s : AppState) (h : s.filesData.length < 2) :
    mergePDFs s = (s, [], MergeResult.insufficientFiles) ∧
      updateButtons s.filesData = true := by
  constructor
  · unfold mergePDFs
    rw [if_pos h]
  · simp [updateButtons, h]

/-- Witness for C3 at a one-entry state. -/
theorem merge_insufficient_files_witness :
    stOne.filesData.length < 2 ∧
      (mergePDFs stOne = (stOne, [], MergeResult.insufficientFiles) ∧
        updateButtons stOne.filesData = true) :=
  ⟨by decide, merge_insufficient_files stOne (by decide)⟩

/-- C4 (counterexample): in a batch holding one healthy PDF and one
plain-text file, the non-PDF is filtered out before decode and contributes
nothing to the set, but the call emits no alert at all — the rejection of
that file is not accompanied by any `UnsupportedType` signal. -/
theorem mixed_batch_silent_rejection :
    textF.ftype ≠ "application/pdf" ∧
      (handleFilesRun [] [(fileA, "i1"), (textF, "i2")]).2 = [] ∧
      (handleFilesRun [] [(fileA, "i1"), (textF, "i2")]).1 = [mkEntry fileA "i1"] := by
  decide

/-- C4 (amended): every non-PDF input is dropped by the type filter before
the decode step and never changes the set, but the `UnsupportedType` alert
is emitted exactly when the batch is nonempty and holds no PDF at all; a
non-PDF arriving together with accepted PDFs is rejected silently. -/
theorem nonpdf_rejected_before_decode (fs : List Entry)
    (batch : List (PFile × String)) :
    handleFiles fs batch =
      handleFiles fs (batch.filter (fun p => p.1.ftype == "application/pdf"))
    ∧ (Alert.unsupportedType ∈ (handleFilesRun fs batch).2 ↔
        0 < batch.length ∧
          (batch.filter (fun p => p.1.ftype == "application/pdf")).length = 0) := by
  constructor
  · rw [handleFiles_eq, handleFiles_eq]
    unfold acceptedEntries
    rw [List.filter_filter]
    simp
  · rw [handleFilesRun_alerts]
    by_cases h : (batch.filter (fun p => p.1.ftype == "application/pdf")).length = 0 ∧
        0 < batch.length
    · rw [if_pos h]
      simp [h.1, h.2]
    · rw [if_neg h]
      constructor
      · intro hmem
        rcases List.mem_map.mp hmem with ⟨p, _, hp⟩
        simp at hp
      · intro hrhs
        exact absurd ⟨hrhs.2, hrhs.1⟩ h

/-- C5 (counterexample): two merges failing at entries with different ids
(`a1` versus `b1`) but the same underlying message signal identical
outcomes, so the signalled merge error carries the underlying cause but
cannot carry the failing entry's identifier. -/
theorem merge_error_identical_across_ids :
    (mergePDFs stFail).2.2 = (mergePDFs stFailB).2.2 ∧
      stFail.filesData.map Entry.id ≠ stFailB.filesData.map Entry.id := by
  decide

/-- C5 (amended): if an entry fails during the merge loop, the whole merge
aborts at the first failing entry — the entries before it are attempted once
each, in order, and later entries never (fail-fast, single attempt, no
retry) — no artifact (not even a merged prefix) is produced, and the
signalled error carries the underlying cause; the failing entry's
identifier is not part of the signal. -/
theorem merge_fail_fast_no_partial (s : AppState) (pre : List Entry)
    (bad : Entry) (post : List Entry) (c : String)
    (hsplit : s.filesData = pre ++ bad :: post)
    (h2 : 2 ≤ s.filesData.length)
    (hpre : ∀ e ∈ pre, e.loadErr = none) (hbad : bad.loadErr = some c) :
    (mergePDFs s).2.2 = MergeResult.mergeError c ∧
      (mergePDFs s).2.1 = pre.map Entry.id ++ [bad.id] := by
  unfold mergePDFs
  rw [if_neg (by omega), hsplit, mergeLoop_err pre bad post [] c hpre hbad]
  exact ⟨rfl, rfl⟩

/-- Witness for C5 (amended) at a state whose second entry fails to load. -/
theorem merge_fail_fast_no_partial_witness :
    stFail.filesData = [entryA] ++ boomA :: [] ∧
      2 ≤ stFail.filesData.length ∧
      (∀ e ∈ [entryA], e.loadErr = none) ∧
      boomA.loadErr = some "Failed to parse PDF document" ∧
      ((mergePDFs stFail).2.2 = MergeResult.mergeError "Failed to parse PDF document" ∧
        (mergePDFs stFail).2.1 = [entryA].map Entry.id ++ [boomA.id]) :=
  ⟨by decide, by decide, by decide, by decide,
    merge_fail_fast_no_partial stFail [entryA] boomA [] "Failed to parse PDF document"
      (by decide) (by decide) (by decide) (by decide)⟩

/-- C6: a failed add — decode failure, or non-PDF type (which never reaches
`addFile` at all) — leaves `filesData` exactly as before the call;
the rejected file is never added, not even partially. -/
theorem failed_add_frame (fs : List Entry) (f : PFile) (i : String) :
    (f.decodeOk = false → addFile fs f i = fs) ∧
      (f.ftype ≠ "application/pdf" → handleFiles fs [(f, i)] = fs) := by
  constructor
  · intro h
    simp [addFile, addFileRun, h]
  · intro h
    have hb : ((f, i).1.ftype == "application/pdf") = false := by
      simpa using h
    simp [handleFiles, handleFilesRun, List.filter_cons, hb]

/-- Witness for C6: a corrupt PDF and a text file against a one-entry set. -/
theorem failed_add_frame_witness :
    corruptF.decodeOk = false ∧ addFile [entryA] corruptF "ix" = [entryA] ∧
      textF.ftype ≠ "application/pdf" ∧ handleFiles [entryA] [(textF, "iy")] = [entryA] :=
  ⟨by decide, (failed_add_frame [entryA] corruptF "ix").1 (by decide),
    by decide, (failed_add_frame [entryA] textF "iy").2 (by decide)⟩

/-- C7: `mergePDFs` never mutates the ordered file set: the entry sequence
(ids, order and per-entry metadata) after the call equals the sequence
before it, whether the merge succeeds, fails, or returns early. -/
theorem merge_preserves_fileset (s : AppState) :
    (mergePDFs s).1.filesData = s.filesData := by
  unfold mergePDFs
  by_cases h : s.filesData.length < 2
  · rw [if_pos h]
  · rw [if_neg h]
    rcases hml : mergeLoop s.filesData [] with ⟨tr, r⟩
    cases r <;> simp

/-- C8: moving an entry between two positions preserves the multiset of
entries — the same entries (hence the same ids) are present before and
after, only the order changes; from `[A, B, C]`, moving `C` to index `0`
yields `[C, A, B]`. -/
theorem moveTo_preserves_multiset :
    (∀ (fs : List Entry) (src tgt : Nat), src < fs.length → tgt < fs.length →
      List.Perm (moveTo fs src tgt) fs)
    ∧ moveTo [entryA, entryB, entryC] 2 0 = [entryC, entryA, entryB] := by
  constructor
  · exact moveTo_perm
  · decide

/-- Witness for C8: moving the third of three entries to the front. -/
theorem moveTo_preserves_multiset_witness :
    2 < ([entryA, entryB, entryC] : List Entry).length ∧
      0 < ([entryA, entryB, entryC] : List Entry).length ∧
      List.Perm (moveTo [entryA, entryB, entryC] 2 0) [entryA, entryB, entryC] :=
  ⟨by decide, by decide,
    moveTo_preserves_multiset.1 [entryA, entryB, entryC] 2 0 (by decide) (by decide)⟩

/-- C9: `removeFile` is idempotent, removing an id absent from the set
(including a second removal of the same id) is a no-op rather than an
error, and removal preserves the relative order of the remaining entries
(the result is a sublist of the input). -/
theorem remove_idempotent_order (fs : List Entry) (i : String) :
    removeFile (removeFile fs i) i = removeFile fs i ∧
      (i ∉ fs.map Entry.id → removeFile fs i = fs) ∧
      List.Sublist (removeFile fs i) fs := by
  refine ⟨?_, ?_, List.filter_sublist fs⟩
  · unfold removeFile
    rw [List.filter_filter]
    simp
  · intro h
    unfold removeFile
    rw [List.filter_eq_self]
    intro a ha
    simp only [bne_iff_ne, ne_eq]
    intro heq
    exact h (List.mem_map.mpr ⟨a, ha, heq⟩)

/-- Witness for C9: removing an absent id from a two-entry set. -/
theorem remove_idempotent_order_witness :
    "zz" ∉ ([entryA, entryB] : List Entry).map Entry.id ∧
      (removeFile (removeFile [entryA, entryB] "zz") "zz" =
          removeFile [entryA, entryB] "zz" ∧
        removeFile [entryA, entryB] "zz" = [entryA, entryB] ∧
        List.Sublist (removeFile [entryA, entryB] "zz") [entryA, entryB]) :=
  ⟨by decide,
    (remove_idempotent_order [entryA, entryB] "zz").1,
    (remove_idempotent_order [entryA, entryB] "zz").2.1 (by decide),
    (remove_idempotent_order [entryA, entryB] "zz").2.2⟩

/-- C10: within one batch, the accepted PDF files are decoded and appended
by a sequential awaited loop, so the batch's entries extend the set in the
batch's own call order (the order of the input list). -/
theorem batch_adds_in_call_order (fs : List Entry) (batch : List (PFile × String)) :
    handleFiles fs batch = fs ++ acceptedEntries batch :=
  handleFiles_eq fs batch
